import Mathlib

/-!
# VarStorage/FuncaptchaKeys.go

The Go package `varstorage` declares two exported package-level variables,
`DefaultKeys` and `DefaultPresets`, both of type `map[string]string` and both
initialised by a map literal of six entries. The package declares no function,
no method and no `init` block.

A Go `map[string]string` is embedded as the list of its entries, in the order of
the literal. The Go operations on a map are embedded as functions on that list:

* `v, ok := m[k]`  is `mapLookup m k` (`some v` when `ok`, `none` when not),
  and `mapCommaOk m k` gives the pair Go hands back;
* `m[k]`           is `mapIndex m k` (the zero value `""` for an absent key);
* `m[k] = v`       is `mapStore m k v`;
* `delete(m, k)`   is `mapDelete m k`.

All strings of the file are ASCII, so a Lean character is one Go byte.
-/

namespace VarStorage

/-! ## Go maps from strings to strings -/

/-- Entries of a Go `map[string]string`; the keys of a map are pairwise distinct. -/
abbrev GoMap := List (String × String)

/-- Comma-ok read `v, ok := m[name]`: `some v` when the key is present, `none` when absent. -/
def mapLookup : GoMap → String → Option String
  | [], _ => none
  | (k, v) :: rest, name => if name = k then some v else mapLookup rest name

/-- Pair returned by `v, ok := m[name]`: the zero value `""` and `false` for an absent key. -/
def mapCommaOk (m : GoMap) (name : String) : String × Bool :=
  match mapLookup m name with
  | some v => (v, true)
  | none => ("", false)

/-- Plain index expression `m[name]`: the zero value `""` for an absent key. -/
def mapIndex (m : GoMap) (name : String) : String :=
  match mapLookup m name with
  | some v => v
  | none => ""

/-- Assignment `m[name] = value`: replaces the value of a present key, adds an absent one. -/
def mapStore : GoMap → String → String → GoMap
  | [], name, value => [(name, value)]
  | (k, v) :: rest, name, value =>
    if name = k then (k, value) :: rest else (k, v) :: mapStore rest name value

/-- Builtin `delete(m, name)`: drops the entry of a present key, does nothing for an absent
one. -/
def mapDelete : GoMap → String → GoMap
  | [], _ => []
  | (k, v) :: rest, name =>
    if name = k then mapDelete rest name else (k, v) :: mapDelete rest name

/-- Keys of a map, in entry order. -/
def mapKeys (m : GoMap) : List String := m.map Prod.fst

/-- Values of a map, in entry order. -/
def mapValues (m : GoMap) : List String := m.map Prod.snd

/-! ## The two tables of the source file -/

/-- Table `DefaultKeys` (source lines 4 to 11). -/
def DefaultKeys : GoMap :=
  [ ("Login",          "476068BF-9607-4799-B53D-966BE98E2B81"),
    ("Signup",         "A2A14B1D-1AF3-C791-9BBC-EE33CC7A0A6F"),
    ("GroupJoin",      "63E4117F-E727-42B4-6DAA-C8448E9B137F"),
    ("FollowUser",     "63E4117F-E727-42B4-6DAA-C8448E9B137F"),
    ("WallPost",       "63E4117F-E727-42B4-6DAA-C8448E9B137F"),
    ("GenericCaptcha", "CC30DB96-0C88-4DEB-86E5-6601927ACBB4") ]

/-- Table `DefaultPresets` (source lines 12 to 19). -/
def DefaultPresets : GoMap :=
  [ ("Login",          "roblox_login"),
    ("Signup",         "roblox_register"),
    ("GroupJoin",      "roblox_join"),
    ("FollowUser",     "roblox_follow"),
    ("WallPost",       "roblox_wallpost"),
    ("GenericCaptcha", "roblox_generic") ]

/-! ## Vocabulary of the specification -/

/-- The six flow names listed by the specification. -/
def flowNames : List String :=
  ["Login", "Signup", "GroupJoin", "FollowUser", "WallPost", "GenericCaptcha"]

/-- The three flow names the specification says share one public key. -/
def sharedKeyFlows : List String := ["GroupJoin", "FollowUser", "WallPost"]

/-- Uppercase hexadecimal digit: `0-9` or `A-F`. -/
def isUpperHex (c : Char) : Bool :=
  ('0' ≤ c && c ≤ '9') || ('A' ≤ c && c ≤ 'F')

/-- Lowercase ASCII letter: `a-z`. -/
def isLowerLetter (c : Char) : Bool :=
  'a' ≤ c && c ≤ 'z'

/-- Positions of the four hyphens of an 8-4-4-4-12 string. -/
def hyphenPositions : List Nat := [8, 13, 18, 23]

/-- Groups of a character list cut at every hyphen (the hyphens are dropped). -/
def hyphenGroups : List Char → List (List Char)
  | [] => [[]]
  | c :: cs =>
    if c = '-' then [] :: hyphenGroups cs
    else
      match hyphenGroups cs with
      | [] => [[c]]
      | g :: gs => (c :: g) :: gs

/-- Shape 8-4-4-4-12 of uppercase hexadecimal groups: 36 characters, a hyphen at each of
the positions 8, 13, 18, 23, an uppercase hexadecimal digit everywhere else, and the groups
between the hyphens of lengths 8, 4, 4, 4, 12. -/
def UuidShape (s : String) : Prop :=
  s.length = 36 ∧
  (∀ i, i < 36 →
    (i ∈ hyphenPositions → s.toList[i]? = some '-') ∧
    (i ∉ hyphenPositions → ∃ c, s.toList[i]? = some c ∧ isUpperHex c = true)) ∧
  (hyphenGroups s.toList).map List.length = [8, 4, 4, 4, 12] ∧
  (∀ g ∈ hyphenGroups s.toList, ∀ c ∈ g, isUpperHex c = true)

/-- Shape `roblox_<lowercase-identifier>`: the characters `roblox_` followed by a non-empty
run of lowercase ASCII letters. -/
def PresetShape (s : String) : Prop :=
  ∃ rest : List Char,
    s.toList = "roblox_".toList ++ rest ∧ rest ≠ [] ∧ ∀ c ∈ rest, isLowerLetter c = true

/-! ## The package variables as program state -/

/-- The two exported package-level variables. -/
structure Vars where
  DefaultKeys : GoMap
  DefaultPresets : GoMap
deriving DecidableEq

/-- State after package initialisation: each variable holds its literal. -/
def initVars : Vars := ⟨DefaultKeys, DefaultPresets⟩

/-- Which of the two variables an operation addresses. -/
inductive Table where
  | keys
  | presets
deriving DecidableEq

/-- Go statements that act on the map held by an exported map variable `T`. The variables
are exported and the package wraps them in no accessor, so every one of these statements is
open to any code of the process. -/
inductive Op where
  /-- Read `v := T[name]`. -/
  | index (t : Table) (name : String)
  /-- Read `v, ok := T[name]`. -/
  | commaOk (t : Table) (name : String)
  /-- Write `T[name] = value`. -/
  | store (t : Table) (name value : String)
  /-- Write `delete(T, name)`. -/
  | delete (t : Table) (name : String)
deriving DecidableEq

/-- What an operation writes at entry `name` of table `t`: `none` when it does not write
there, `some (some v)` when it stores `v` there, `some none` when it deletes the entry. -/
def Op.writeTo (t : Table) (name : String) : Op → Option (Option String)
  | .index _ _ => none
  | .commaOk _ _ => none
  | .store u n v => if u = t ∧ n = name then some (some v) else none
  | .delete u n => if u = t ∧ n = name then some none else none

/-- Last write of a sequence of operations at entry `name` of table `t`, if there is one. -/
def lastWrite (t : Table) (name : String) : List Op → Option (Option String)
  | [] => none
  | op :: ops =>
    match lastWrite t name ops with
    | some w => some w
    | none => op.writeTo t name

/-- Value an operation hands back to its caller. -/
inductive Outcome where
  | value (v : String)
  | valueOk (v : String) (ok : Bool)
  | done
deriving DecidableEq

/-- Map held by the addressed variable. -/
def Vars.table (s : Vars) : Table → GoMap
  | .keys => s.DefaultKeys
  | .presets => s.DefaultPresets

/-- State with the addressed variable holding `m`. -/
def Vars.setTable (s : Vars) (t : Table) (m : GoMap) : Vars :=
  match t with
  | .keys => { s with DefaultKeys := m }
  | .presets => { s with DefaultPresets := m }

/-- One operation: the state after it and what it returns. -/
def step (s : Vars) : Op → Vars × Outcome
  | .index t name => (s, .value (mapIndex (s.table t) name))
  | .commaOk t name =>
    (s, .valueOk (mapCommaOk (s.table t) name).1 (mapCommaOk (s.table t) name).2)
  | .store t name value => (s.setTable t (mapStore (s.table t) name value), .done)
  | .delete t name => (s.setTable t (mapDelete (s.table t) name), .done)

/-- State after a sequence of operations, run left to right. -/
def run (s : Vars) : List Op → Vars
  | [] => s
  | op :: ops => run (step s op).1 ops

/-! ## Lemmas on map reads -/

theorem mapLookup_mem {m : GoMap} {name v : String} (h : mapLookup m name = some v) :
    (name, v) ∈ m := by
  induction m with
  | nil => simp [mapLookup] at h
  | cons e rest ih =>
    obtain ⟨k, w⟩ := e
    unfold mapLookup at h
    split at h
    · rename_i hk
      cases h
      subst hk
      exact List.mem_cons_self _ _
    · exact List.mem_cons_of_mem _ (ih h)

theorem mapLookup_eq_none_iff (m : GoMap) (name : String) :
    mapLookup m name = none ↔ name ∉ mapKeys m := by
  induction m with
  | nil => simp [mapLookup, mapKeys]
  | cons e rest ih =>
    obtain ⟨k, w⟩ := e
    unfold mapLookup
    by_cases hk : name = k
    · simp [hk, mapKeys]
    · simp only [hk, if_false, ih]
      simp [mapKeys, hk]

theorem mapLookup_isSome_iff (m : GoMap) (name : String) :
    (mapLookup m name).isSome = true ↔ name ∈ mapKeys m := by
  rw [← not_iff_not, ← mapLookup_eq_none_iff]
  cases mapLookup m name <;> simp

theorem mapKeys_DefaultKeys : mapKeys DefaultKeys = flowNames := by decide

theorem mapKeys_DefaultPresets : mapKeys DefaultPresets = flowNames := by decide

theorem mapIndex_eq_empty_iff (m : GoMap) (hne : ∀ e ∈ m, e.2 ≠ "") (name : String) :
    mapIndex m name = "" ↔ name ∉ mapKeys m := by
  rw [← mapLookup_eq_none_iff]
  unfold mapIndex
  cases h : mapLookup m name with
  | none => simp
  | some v =>
    have := hne _ (mapLookup_mem h)
    simpa using this

theorem DefaultKeys_values_nonempty : ∀ e ∈ DefaultKeys, e.2 ≠ "" := by decide

theorem DefaultPresets_values_nonempty : ∀ e ∈ DefaultPresets, e.2 ≠ "" := by decide

/-! ## The table contents -/

/-- C1: each of the six flow names, looked up in `DefaultKeys` and in `DefaultPresets`,
returns exactly the public key and the preset name of the table of the specification. -/
theorem lookup_returns_table_rows :
    (mapLookup DefaultKeys "Login" = some "476068BF-9607-4799-B53D-966BE98E2B81" ∧
      mapLookup DefaultPresets "Login" = some "roblox_login") ∧
    (mapLookup DefaultKeys "Signup" = some "A2A14B1D-1AF3-C791-9BBC-EE33CC7A0A6F" ∧
      mapLookup DefaultPresets "Signup" = some "roblox_register") ∧
    (mapLookup DefaultKeys "GroupJoin" = some "63E4117F-E727-42B4-6DAA-C8448E9B137F" ∧
      mapLookup DefaultPresets "GroupJoin" = some "roblox_join") ∧
    (mapLookup DefaultKeys "FollowUser" = some "63E4117F-E727-42B4-6DAA-C8448E9B137F" ∧
      mapLookup DefaultPresets "FollowUser" = some "roblox_follow") ∧
    (mapLookup DefaultKeys "WallPost" = some "63E4117F-E727-42B4-6DAA-C8448E9B137F" ∧
      mapLookup DefaultPresets "WallPost" = some "roblox_wallpost") ∧
    (mapLookup DefaultKeys "GenericCaptcha" = some "CC30DB96-0C88-4DEB-86E5-6601927ACBB4" ∧
      mapLookup DefaultPresets "GenericCaptcha" = some "roblox_generic") := by
  decide

/-- C2: for a string that is not one of the six flow names, the comma-ok read of
`DefaultKeys` and of `DefaultPresets` reports the key as absent (`ok` is false) and carries
no value other than the zero value of the string type. -/
theorem lookup_miss_outside_flowNames (name : String) (h : name ∉ flowNames) :
    (mapLookup DefaultKeys name = none ∧ mapCommaOk DefaultKeys name = ("", false)) ∧
    (mapLookup DefaultPresets name = none ∧ mapCommaOk DefaultPresets name = ("", false)) := by
  have hk : mapLookup DefaultKeys name = none := by
    rw [mapLookup_eq_none_iff, mapKeys_DefaultKeys]; exact h
  have hp : mapLookup DefaultPresets name = none := by
    rw [mapLookup_eq_none_iff, mapKeys_DefaultPresets]; exact h
  simp [mapCommaOk, hk, hp]

/-- C2 at the string `NotAFlow`, which is not a flow name. -/
theorem lookup_miss_outside_flowNames_witness :
    "NotAFlow" ∉ flowNames ∧
    (mapLookup DefaultKeys "NotAFlow" = none ∧
      mapCommaOk DefaultKeys "NotAFlow" = ("", false)) ∧
    (mapLookup DefaultPresets "NotAFlow" = none ∧
      mapCommaOk DefaultPresets "NotAFlow" = ("", false)) :=
  ⟨by decide, lookup_miss_outside_flowNames "NotAFlow" (by decide)⟩

/-- C3: a string is a key of `DefaultKeys` if and only if it is a key of `DefaultPresets`. -/
theorem key_sets_equal (name : String) :
    (mapLookup DefaultKeys name).isSome = true ↔
      (mapLookup DefaultPresets name).isSome = true := by
  rw [mapLookup_isSome_iff, mapLookup_isSome_iff, mapKeys_DefaultKeys, mapKeys_DefaultPresets]

/-- C4: every value stored in `DefaultKeys` has 36 characters in five groups of 8, 4, 4, 4
and 12 uppercase hexadecimal digits, with single hyphens at positions 8, 13, 18 and 23. -/
theorem key_values_uuid_shape (name v : String) (h : mapLookup DefaultKeys name = some v) :
    UuidShape v := by
  have hm := mapLookup_mem h
  simp only [DefaultKeys, List.mem_cons, Prod.mk.injEq, List.mem_singleton, List.not_mem_nil,
    or_false] at hm
  rcases hm with ⟨-, rfl⟩ | ⟨-, rfl⟩ | ⟨-, rfl⟩ | ⟨-, rfl⟩ | ⟨-, rfl⟩ | ⟨-, rfl⟩ <;>
    refine ⟨by decide, by decide, by decide, by decide⟩

/-- C4 at the entry of `Signup`. -/
theorem key_values_uuid_shape_witness :
    mapLookup DefaultKeys "Signup" = some "A2A14B1D-1AF3-C791-9BBC-EE33CC7A0A6F" ∧
    UuidShape "A2A14B1D-1AF3-C791-9BBC-EE33CC7A0A6F" :=
  ⟨by decide, key_values_uuid_shape "Signup" _ (by decide)⟩

/-- C5: every value stored in `DefaultPresets` is `roblox_` followed by a non-empty run of
lowercase ASCII letters. -/
theorem preset_values_shape (name v : String) (h : mapLookup DefaultPresets name = some v) :
    PresetShape v := by
  have hm := mapLookup_mem h
  simp only [DefaultPresets, List.mem_cons, Prod.mk.injEq, List.mem_singleton,
    List.not_mem_nil, or_false] at hm
  rcases hm with ⟨-, rfl⟩ | ⟨-, rfl⟩ | ⟨-, rfl⟩ | ⟨-, rfl⟩ | ⟨-, rfl⟩ | ⟨-, rfl⟩
  · exact ⟨"login".toList, by decide, by decide, by decide⟩
  · exact ⟨"register".toList, by decide, by decide, by decide⟩
  · exact ⟨"join".toList, by decide, by decide, by decide⟩
  · exact ⟨"follow".toList, by decide, by decide, by decide⟩
  · exact ⟨"wallpost".toList, by decide, by decide, by decide⟩
  · exact ⟨"generic".toList, by decide, by decide, by decide⟩

/-- C5 at the entry of `WallPost`. -/
theorem preset_values_shape_witness :
    mapLookup DefaultPresets "WallPost" = some "roblox_wallpost" ∧
    PresetShape "roblox_wallpost" :=
  ⟨by decide, preset_values_shape "WallPost" _ (by decide)⟩

/-- C6: for each of the six flow names the read of `DefaultKeys` and the read of
`DefaultPresets` both succeed with a non-empty string, and neither table stores the empty
string. -/
theorem flow_lookups_nonempty (name : String) (h : name ∈ flowNames) :
    (∃ k, mapLookup DefaultKeys name = some k ∧ k ≠ "") ∧
    (∃ p, mapLookup DefaultPresets name = some p ∧ p ≠ "") ∧
    "" ∉ mapValues DefaultKeys ∧ "" ∉ mapValues DefaultPresets := by
  have h1 : (mapLookup DefaultKeys name).isSome = true :=
    (mapLookup_isSome_iff _ _).2 (by rw [mapKeys_DefaultKeys]; exact h)
  have h2 : (mapLookup DefaultPresets name).isSome = true :=
    (mapLookup_isSome_iff _ _).2 (by rw [mapKeys_DefaultPresets]; exact h)
  obtain ⟨k, hk⟩ := Option.isSome_iff_exists.1 h1
  obtain ⟨p, hp⟩ := Option.isSome_iff_exists.1 h2
  exact ⟨⟨k, hk, DefaultKeys_values_nonempty _ (mapLookup_mem hk)⟩,
    ⟨p, hp, DefaultPresets_values_nonempty _ (mapLookup_mem hp)⟩, by decide, by decide⟩

/-- C6 at the flow name `FollowUser`. -/
theorem flow_lookups_nonempty_witness :
    "FollowUser" ∈ flowNames ∧
    (∃ k, mapLookup DefaultKeys "FollowUser" = some k ∧ k ≠ "") ∧
    (∃ p, mapLookup DefaultPresets "FollowUser" = some p ∧ p ≠ "") ∧
    "" ∉ mapValues DefaultKeys ∧ "" ∉ mapValues DefaultPresets :=
  ⟨by decide, flow_lookups_nonempty "FollowUser" (by decide)⟩

/-- C8: `GroupJoin`, `FollowUser` and `WallPost` read the same public key from
`DefaultKeys`, the string `63E4117F-E727-42B4-6DAA-C8448E9B137F`. -/
theorem shared_public_key :
    mapLookup DefaultKeys "GroupJoin" = some "63E4117F-E727-42B4-6DAA-C8448E9B137F" ∧
    mapLookup DefaultKeys "FollowUser" = some "63E4117F-E727-42B4-6DAA-C8448E9B137F" ∧
    mapLookup DefaultKeys "WallPost" = some "63E4117F-E727-42B4-6DAA-C8448E9B137F" ∧
    mapLookup DefaultKeys "GroupJoin" = mapLookup DefaultKeys "FollowUser" ∧
    mapLookup DefaultKeys "FollowUser" = mapLookup DefaultKeys "WallPost" := by
  decide

/-- C9: the plain index expression on `DefaultKeys`, and on `DefaultPresets`, yields the
empty string exactly for the strings that are not one of the six flow names. -/
theorem index_empty_iff_miss (name : String) :
    (mapIndex DefaultKeys name = "" ↔ name ∉ flowNames) ∧
    (mapIndex DefaultPresets name = "" ↔ name ∉ flowNames) := by
  constructor
  · rw [mapIndex_eq_empty_iff _ DefaultKeys_values_nonempty, mapKeys_DefaultKeys]
  · rw [mapIndex_eq_empty_iff _ DefaultPresets_values_nonempty, mapKeys_DefaultPresets]

/-- C10: two distinct names never read the same preset from `DefaultPresets`; two distinct
names read the same public key from `DefaultKeys` exactly when both are among `GroupJoin`,
`FollowUser`, `WallPost`; and `DefaultKeys` stores exactly four distinct values. -/
theorem presets_injective_keys_not (a b : String) (hab : a ≠ b) :
    (∀ v, mapLookup DefaultPresets a = some v → mapLookup DefaultPresets b ≠ some v) ∧
    ((∃ v, mapLookup DefaultKeys a = some v ∧ mapLookup DefaultKeys b = some v) ↔
      (a ∈ sharedKeyFlows ∧ b ∈ sharedKeyFlows)) ∧
    (mapValues DefaultKeys).dedup.length = 4 ∧
    (∃ x y, x ≠ y ∧ (mapLookup DefaultKeys x).isSome = true ∧
      mapLookup DefaultKeys x = mapLookup DefaultKeys y) := by
  refine ⟨?_, ⟨?_, ?_⟩, by decide, "GroupJoin", "FollowUser", by decide, by decide, by decide⟩
  · intro v ha hb
    have hma := mapLookup_mem ha
    have hmb := mapLookup_mem hb
    simp only [DefaultPresets, List.mem_cons, Prod.mk.injEq, List.mem_singleton,
      List.not_mem_nil, or_false] at hma hmb
    rcases hma with ⟨rfl, rfl⟩ | ⟨rfl, rfl⟩ | ⟨rfl, rfl⟩ | ⟨rfl, rfl⟩ | ⟨rfl, rfl⟩ | ⟨rfl, rfl⟩ <;>
      simp at hmb <;> exact hab hmb.symm
  · rintro ⟨v, ha, hb⟩
    have hma := mapLookup_mem ha
    have hmb := mapLookup_mem hb
    simp only [DefaultKeys, List.mem_cons, Prod.mk.injEq, List.mem_singleton,
      List.not_mem_nil, or_false] at hma hmb
    rcases hma with ⟨rfl, rfl⟩ | ⟨rfl, rfl⟩ | ⟨rfl, rfl⟩ | ⟨rfl, rfl⟩ | ⟨rfl, rfl⟩ | ⟨rfl, rfl⟩ <;>
      simp at hmb <;>
      first
        | exact absurd hmb.symm hab
        | (rcases hmb with rfl | rfl | rfl <;>
            first
              | exact absurd rfl hab
              | decide)
  · rintro ⟨ha, hb⟩
    simp only [sharedKeyFlows, List.mem_cons, List.mem_singleton, List.not_mem_nil,
      or_false] at ha hb
    refine ⟨"63E4117F-E727-42B4-6DAA-C8448E9B137F", ?_, ?_⟩
    · rcases ha with rfl | rfl | rfl <;> decide
    · rcases hb with rfl | rfl | rfl <;> decide

/-- C10 at the distinct flow names `GroupJoin` and `WallPost`. -/
theorem presets_injective_keys_not_witness :
    "GroupJoin" ≠ "WallPost" ∧
    (∀ v, mapLookup DefaultPresets "GroupJoin" = some v →
      mapLookup DefaultPresets "WallPost" ≠ some v) ∧
    ((∃ v, mapLookup DefaultKeys "GroupJoin" = some v ∧
        mapLookup DefaultKeys "WallPost" = some v) ↔
      ("GroupJoin" ∈ sharedKeyFlows ∧ "WallPost" ∈ sharedKeyFlows)) ∧
    (mapValues DefaultKeys).dedup.length = 4 ∧
    (∃ x y, x ≠ y ∧ (mapLookup DefaultKeys x).isSome = true ∧
      mapLookup DefaultKeys x = mapLookup DefaultKeys y) :=
  ⟨by decide, presets_injective_keys_not "GroupJoin" "WallPost" (by decide)⟩

/-! ## The tables as mutable package state -/

theorem mapLookup_mapStore (m : GoMap) (k v name : String) :
    mapLookup (mapStore m k v) name = if name = k then some v else mapLookup m name := by
  induction m with
  | nil => simp [mapStore, mapLookup]
  | cons e rest ih =>
    obtain ⟨j, w⟩ := e
    unfold mapStore
    by_cases hkj : k = j
    · subst hkj
      by_cases hn : name = k <;> simp [mapLookup, hn]
    · simp only [hkj, if_false]
      unfold mapLookup
      by_cases hnj : name = j
      · have hnk : ¬ name = k := fun h => hkj (h.symm.trans hnj)
        simp only [hnj, if_true]
        rw [if_neg (fun h => hkj h.symm)]
      · simp only [hnj, if_false, ih]

theorem mapLookup_mapDelete (m : GoMap) (k name : String) :
    mapLookup (mapDelete m k) name = if name = k then none else mapLookup m name := by
  induction m with
  | nil => simp [mapDelete, mapLookup]
  | cons e rest ih =>
    obtain ⟨j, w⟩ := e
    unfold mapDelete
    by_cases hkj : k = j
    · subst hkj
      simp only [if_true, ih]
      by_cases hn : name = k
      · simp [hn]
      · simp [mapLookup, hn]
    · simp only [hkj, if_false]
      unfold mapLookup
      by_cases hnj : name = j
      · simp only [hnj, if_true]
        rw [if_neg (fun h => hkj h.symm)]
      · simp only [hnj, if_false, ih]

theorem mapLookup_step (s : Vars) (op : Op) (t : Table) (name : String) :
    mapLookup ((step s op).1.table t) name =
      match op.writeTo t name with
      | some w => w
      | none => mapLookup (s.table t) name := by
  cases op with
  | index u n => rfl
  | commaOk u n => rfl
  | store u n v =>
    cases u <;> cases t <;>
      simp only [step, Op.writeTo, Vars.table, Vars.setTable, mapLookup_mapStore] <;>
      by_cases hn : name = n <;>
      first
        | (subst hn; simp)
        | (have hn2 : ¬ n = name := fun h => hn h.symm
           simp [hn, hn2])
  | delete u n =>
    cases u <;> cases t <;>
      simp only [step, Op.writeTo, Vars.table, Vars.setTable, mapLookup_mapDelete] <;>
      by_cases hn : name = n <;>
      first
        | (subst hn; simp)
        | (have hn2 : ¬ n = name := fun h => hn h.symm
           simp [hn, hn2])

theorem mapLookup_run (s : Vars) (ops : List Op) (t : Table) (name : String) :
    mapLookup ((run s ops).table t) name =
      match lastWrite t name ops with
      | some w => w
      | none => mapLookup (s.table t) name := by
  induction ops generalizing s with
  | nil => rfl
  | cons op ops ih =>
    simp only [run, lastWrite]
    rw [ih (step s op).1]
    cases lastWrite t name ops with
    | some w => rfl
    | none => exact mapLookup_step s op t name

/-- C7, as the claim states it, fails: the tables are exported map variables, and the Go
assignment `DefaultKeys["Login"] = ""` run after initialisation leaves a state in which
`DefaultKeys` maps `Login` to the empty string and no longer to its initial public key. -/
theorem store_mutates_DefaultKeys :
    mapLookup initVars.DefaultKeys "Login" = some "476068BF-9607-4799-B53D-966BE98E2B81" ∧
    mapLookup (run initVars [Op.store Table.keys "Login" ""]).DefaultKeys "Login" = some "" ∧
    run initVars [Op.store Table.keys "Login" ""] ≠ initVars := by
  decide

/-- C7, amended: in every state reached from package initialisation by index reads, comma-ok
reads, stores and deletes on the two maps, the read of `DefaultKeys` at a name, and likewise
of `DefaultPresets`, returns what the last store or delete on that table at that name left
there, and returns exactly what the literal of the table holds at that name when no store or
delete addressed that table at that name. -/
theorem table_entry_follows_last_write (ops : List Op) (name : String) :
    (mapLookup (run initVars ops).DefaultKeys name =
      match lastWrite Table.keys name ops with
      | some w => w
      | none => mapLookup DefaultKeys name) ∧
    (mapLookup (run initVars ops).DefaultPresets name =
      match lastWrite Table.presets name ops with
      | some w => w
      | none => mapLookup DefaultPresets name) :=
  ⟨mapLookup_run initVars ops Table.keys name, mapLookup_run initVars ops Table.presets name⟩

end VarStorage
